import Mathlib

/-!
Shallow embedding of the channel countdown timer of
lionel-panhaleux/timer, from `src/timer_bot.py` (the `Timer` class and
its command handlers) and `src/bot.py` (the `TimerManager` display
callback and its command handlers).  Python floats are modelled by `ℚ`,
Python ints by `ℕ`, and the asyncio futures (`resume_future`,
`countdown_future`) by the boolean pause status they encode; each
operation is given the settled effect it has once the countdown loop
has reacted to the cancellation of its pending sleep.
-/

namespace TimerBot

/-- The `THRESHOLDS` list of timer_bot.py: fixed list of times (seconds) on which
to send a notification. -/
def THRESHOLDS : List ℕ := [0, 1 * 60, 5 * 60, 15 * 60, 30 * 60]

/-- The `DISPLAY_SECONDS` constant of timer_bot.py: the embed displays seconds from
this point on. -/
def DISPLAY_SECONDS : ℚ := 5 * 60

/-- The threshold list built in `Timer.__init__`:
`[limit for limit in THRESHOLDS if time > limit]` followed by
`for limit in range(1, time // 3600 + 1): thresholds.append(limit * 3600)`. -/
def initThresholds (time : ℕ) : List ℕ :=
  THRESHOLDS.filter (fun limit => decide (limit < time))
    ++ (List.range (time / 3600)).map (fun k => (k + 1) * 3600)

/-- State of a `timer_bot.Timer` instance: `time_reference` and
`time_left` are Python floats, `thresholds` the pending notification
times, and `paused` stands for `resume_future is not None`. -/
structure Timer where
  time_reference : ℚ
  time_left : ℚ
  thresholds : List ℕ
  paused : Bool
deriving Repr, DecidableEq

/-- Constructor `Timer.__init__(channel_id, author_id, time, secured)` restricted to
the timing state: `time_reference = 0.0`, `time_left = float(time)`,
thresholds as built there, not paused. -/
def Timer.init (time : ℕ) : Timer :=
  { time_reference := 0
    time_left := (time : ℚ)
    thresholds := initThresholds time
    paused := false }

/-- One pass of the head of `Timer.countdown`'s loop body:
`new_time = loop.time(); self.time_left -= min(self.time_left, max(0,
new_time - self.time_reference)); self.time_reference = new_time`. -/
def tick (now : ℚ) (s : Timer) : Timer :=
  { s with
    time_left := s.time_left - min s.time_left (max 0 (now - s.time_reference))
    time_reference := now }

/-- A sequence of countdown ticks at the given clock readings. -/
def ticks (ts : List ℚ) (s : Timer) : Timer :=
  ts.foldl (fun st t => tick t st) s

/-- The `add` branch of `command_existing_timer`:
`timer.time_left += minutes * 60`. -/
def cmdAdd (minutes : ℕ) (s : Timer) : Timer :=
  { s with time_left := s.time_left + (minutes : ℚ) * 60 }

/-- The `sub` branch of `command_existing_timer`:
`timer.time_left -= minutes * 60` (no guard, no clamping). -/
def cmdSub (minutes : ℕ) (s : Timer) : Timer :=
  { s with time_left := s.time_left - (minutes : ℚ) * 60 }

/-- Method `Timer.pause`: returns unchanged if `resume_future` is already set
(`# don't pause twice`), otherwise sets it (and cancels the pending
countdown sleep, which does not change the timing state itself). -/
def pauseOp (s : Timer) : Timer :=
  if s.paused then s else { s with paused := true }

/-- The `resume` command path (`Timer.refresh(resume=True)`) with the
countdown loop's settled reaction.  If paused, cancelling
`resume_future` makes the loop run its `finally:` clause, which clears
the future and sets `self.time_reference = loop.time()`.  If running,
`refresh` cancels `countdown_future`, so the loop immediately performs
a fresh tick at the current time. -/
def resumeOp (now : ℚ) (s : Timer) : Timer :=
  if s.paused then { s with paused := false, time_reference := now }
  else tick now s

/-- Method `Timer.stop` together with the countdown loop's settled reaction:
a "Stopped with ..." message is posted iff `self.time_left >= 0.5`,
then `self.time_left = -1` and both futures are cancelled (after which
the loop's `finally:` clauses leave `resume_future = None`).  The
returned boolean records whether the stop message was posted. -/
def stopOp (s : Timer) : Timer × Bool :=
  ({ s with time_left := -1, paused := false }, decide ((1 : ℚ)/2 ≤ s.time_left))

/-- The threshold clause at the end of `Timer._send_or_update_message`:
`if self.thresholds and self.thresholds[-1] >= self.time_left >= 0:`
post one notification for `self.thresholds.pop()`.  Returns the new
state and the list of threshold notifications posted by this call. -/
def fireStep (s : Timer) : Timer × List ℕ :=
  match s.thresholds.getLast? with
  | some last =>
      if s.time_left ≤ (last : ℚ) ∧ 0 ≤ s.time_left then
        ({ s with thresholds := s.thresholds.dropLast }, [last])
      else (s, [])
  | none => (s, [])

/-- The wait scheduled at the bottom of `Timer.countdown`'s loop:
`asyncio.sleep(self.time_left)` when `self.time_left < 2`,
`asyncio.sleep(1.01)` when `self.time_left < DISPLAY_SECONDS + 30`,
`asyncio.sleep(30)` otherwise. -/
def waitInterval (time_left : ℚ) : ℚ :=
  if time_left < 2 then time_left
  else if time_left < DISPLAY_SECONDS + 30 then 101/100
  else 30

/-- The `start` subcommand of timer_bot's `handle_command` (fresh
channel): `total_time = hours * 3600 + minutes * 60`; rejected
(`"Zero time"`) when `not total_time`, before any `Timer` is built;
otherwise the `Timer` is constructed. -/
def startTB (hours minutes : ℕ) : Option Timer :=
  let total := hours * 3600 + minutes * 60
  if total = 0 then none else some (Timer.init total)

end TimerBot

namespace BotPy

/-- The `TimerManager.THRESHOLDS` list of bot.py: fixed list of times on which to
send a notification (no `0` entry, unlike timer_bot.py). -/
def THRESHOLDS : List ℕ := [1 * 60, 5 * 60, 15 * 60, 30 * 60]

/-- Method `TimerManager._next_threshold(time)`: for `time > 3600` return
`int((time - 0.1) // 3600) * 3600`, which for an integer `time ≥ 1`
equals `(time - 1) / 3600 * 3600` in natural division; otherwise the
largest element of `THRESHOLDS` strictly under `time`, or `None`. -/
def nextThreshold (time : ℕ) : Option ℕ :=
  if 3600 < time then some ((time - 1) / 3600 * 3600)
  else (THRESHOLDS.filter (fun t => decide (t < time))).getLast?

/-- Modelled from the spec: `bot.py` does `from . import timer` and uses
`timer.Timer` (fields `left`, `paused`, constant `REFRESH`, methods
`adjust_time`, `pause`, `resume`, `stop`, `run`), but the engine module
shipped as `src/timer.py` is a raw gateway client without that class;
the engine itself is missing from the sources.  Per the spec's data
model, the engine holds the remaining time and total time and a paused
flag. -/
structure EngineTimer where
  left : ℚ
  total : ℚ
  paused : Bool
deriving Repr, DecidableEq

/-- Modelled from the spec: `adjust(delta)` sets
`timeLeft = max(0, timeLeft + delta)` and `totalTime += delta`
(clamping, intentionally not an error). -/
def adjust_time (delta : ℚ) (e : EngineTimer) : EngineTimer :=
  { e with left := max 0 (e.left + delta), total := e.total + delta }

/-- The `sub` branch of bot.py's `handle_command`:
`if minutes * 60 > manager.timer.left - manager.timer.REFRESH:` reply
"Not enough time" and return (nothing touched); otherwise
`manager.timer.adjust_time(-minutes * 60)`.  `REFRESH` lives on the
missing engine class, so it is passed here as a parameter (the spec's
"safety margin"). -/
def handleSub (refresh : ℚ) (minutes : ℕ) (e : EngineTimer) :
    Except Unit EngineTimer :=
  if e.left - refresh < (minutes : ℚ) * 60 then Except.error ()
  else Except.ok (adjust_time (-((minutes : ℚ) * 60)) e)

/-- The `start` subcommand of bot.py's `handle_command` (fresh channel):
`initial_time = hours * 3600 + minutes * 60`; rejected (`"Zero time"`)
when `initial_time < 60`, before any `TimerManager` is built; otherwise
the manager is created with `threshold = _next_threshold(initial_time)`
and the engine running with the full time left. -/
def startB (hours minutes : ℕ) : Option (EngineTimer × Option ℕ) :=
  let initial := hours * 3600 + minutes * 60
  if initial < 60 then none
  else some ({ left := (initial : ℚ), total := (initial : ℚ), paused := false },
             nextThreshold initial)

/-- The threshold-advancing loop of `TimerManager.__call__` with fuel:
`threshold = None; while self.threshold and self.threshold >= time_left:
threshold = self.threshold; self.threshold = self._next_threshold(...)`,
then at most one notification is posted, for the final value of the
local `threshold` (the lowest crossed one).  Returns the new
`self.threshold` and the notified value, if any.  The fuel only bounds
the iteration count; `advance` supplies enough of it (`advanceAux_fuel`
shows any larger amount gives the same result, so the loop terminates). -/
def advanceAux : ℕ → Option ℕ → ℚ → Option ℕ × Option ℕ
  | _, none, _ => (none, none)
  | 0, some v, _ => (some v, none)
  | fuel + 1, some v, time_left =>
      if v ≠ 0 ∧ time_left ≤ (v : ℚ) then
        let r := advanceAux fuel (nextThreshold v) time_left
        (r.1, some (r.2.getD v))
      else (some v, none)

/-- The threshold loop of `TimerManager.__call__`, run to completion. -/
def advance (cur : Option ℕ) (time_left : ℚ) : Option ℕ × Option ℕ :=
  advanceAux (cur.elim 0 (· + 1)) cur time_left

end BotPy

open TimerBot

section Helpers

/-- A tick never makes `time_left` negative and never increases it. -/
theorem tick_bounds (s : Timer) (now : ℚ) (h : 0 ≤ s.time_left) :
    0 ≤ (tick now s).time_left ∧ (tick now s).time_left ≤ s.time_left := by
  unfold tick
  constructor
  · simp only
    have hmin : min s.time_left (max 0 (now - s.time_reference)) ≤ s.time_left :=
      min_le_left _ _
    linarith
  · simp only
    have h0 : 0 ≤ min s.time_left (max 0 (now - s.time_reference)) :=
      le_min h (le_max_left _ _)
    linarith

/-- Bounds propagate through any sequence of ticks. -/
theorem ticks_bounds : ∀ (ts : List ℚ) (s : Timer), 0 ≤ s.time_left →
    0 ≤ (ticks ts s).time_left ∧ (ticks ts s).time_left ≤ s.time_left := by
  intro ts
  induction ts with
  | nil => intro s h; exact ⟨h, le_refl _⟩
  | cons t ts ih =>
      intro s h
      have hb := tick_bounds s t h
      have hrec := ih (tick t s) hb.1
      refine ⟨hrec.1, le_trans hrec.2 hb.2⟩

/-- A tick taken at the current time reference subtracts nothing. -/
theorem tick_at_reference (s : Timer) (h : 0 ≤ s.time_left) :
    tick s.time_reference s = s := by
  have h1 : max (0:ℚ) (s.time_reference - s.time_reference) = 0 := by simp
  have h2 : min s.time_left (0:ℚ) = 0 := min_eq_right h
  unfold tick
  rw [h1, h2, sub_zero]

end Helpers

/-- C1 counterexample: starting a 60s timer, letting 30s elapse
(`time_left = 30`) and running the `sub` command for 1 minute leaves
`time_left = -30`, not `max(0, 30 - 60) = 0`: the `sub` path of
`command_existing_timer` does not clamp. -/
theorem c1_sub_no_clamp_counterexample :
    (cmdSub 1 (tick 30 (Timer.init 60))).time_left = -30 ∧
    (cmdSub 1 (tick 30 (Timer.init 60))).time_left ≠
      max 0 ((tick 30 (Timer.init 60)).time_left + (-(1 * 60))) := by
  constructor
  · simp [cmdSub, tick, Timer.init]
    norm_num
  · simp [cmdSub, tick, Timer.init]
    norm_num

/-- C1 (amended): the add/sub command paths apply the delta exactly,
with no clamping: `add m` yields `time_left + 60 m` and `sub m` yields
`time_left - 60 m`, which may be negative. -/
theorem c1_adjust_exact (s : Timer) (m : ℕ) :
    (cmdAdd m s).time_left = s.time_left + 60 * m ∧
    (cmdSub m s).time_left = s.time_left - 60 * m := by
  constructor <;> simp [cmdAdd, cmdSub] <;> ring

/-- C3: a pause at clock `tp` followed, after an arbitrary pause
duration `p`, by a resume at clock `tp + p` and the loop's next tick
leaves `time_left` exactly as it was at the moment of pausing: the time
reference is reset to the clock reading at resume, so the elapsed `p`
is never subtracted. -/
theorem c3_pause_freezes_time (s : Timer) (tp p : ℚ) (h : 0 ≤ s.time_left) :
    (tick (tp + p) (resumeOp (tp + p) (pauseOp (tick tp s)))).time_left
      = (tick tp s).time_left := by
  have hb := tick_bounds s tp h
  set s1 := tick tp s with hs1
  have hpause : pauseOp s1 =
      { s1 with paused := true } := by
    unfold pauseOp
    by_cases hp : s1.paused
    · rw [if_pos hp, ← hp]
    · rw [if_neg hp]
  rw [hpause]
  have hres : resumeOp (tp + p) { s1 with paused := true } =
      { s1 with paused := false, time_reference := tp + p } := by
    unfold resumeOp
    simp
  rw [hres]
  unfold tick
  simp only
  have : min s1.time_left (max 0 (tp + p - (tp + p))) = 0 := by
    have : max (0:ℚ) (tp + p - (tp + p)) = 0 := by norm_num
    rw [this]
    exact min_eq_right hb.1
  rw [this]
  ring

/-- C3 witness (Scenario B): a 600s timer paused immediately and
resumed 500s later still shows 600s at the next tick. -/
theorem c3_pause_freezes_time_witness :
    (0:ℚ) ≤ (Timer.init 600).time_left ∧
    (tick (0 + 500) (resumeOp (0 + 500) (pauseOp (tick 0 (Timer.init 600))))).time_left
      = (tick 0 (Timer.init 600)).time_left := by
  refine ⟨by norm_num [Timer.init], ?_⟩
  exact c3_pause_freezes_time (Timer.init 600) 0 500 (by norm_num [Timer.init])

/-- C7: `pause`, `resume` and `stop` are idempotent.  A second `pause`
hits the `if self.resume_future: return` guard; a second `resume` at
the same clock reading only triggers a tick that subtracts zero; a
second `stop` finds `time_left = -1 < 0.5` and posts no message, and
writes the same terminal state. -/
theorem c7_pause_resume_stop_idempotent (s : Timer) (now : ℚ) :
    pauseOp (pauseOp s) = pauseOp s ∧
    (0 ≤ s.time_left → resumeOp now (resumeOp now s) = resumeOp now s) ∧
    (stopOp (stopOp s).1).1 = (stopOp s).1 ∧
    (stopOp (stopOp s).1).2 = false := by
  refine ⟨?_, ?_, ?_, ?_⟩
  · unfold pauseOp
    by_cases hp : s.paused <;> simp [hp]
  · intro h
    unfold resumeOp
    by_cases hp : s.paused
    · rw [if_pos hp]
      rw [if_neg (by simp)]
      calc tick now { s with paused := false, time_reference := now }
          = tick { s with paused := false, time_reference := now }.time_reference
              { s with paused := false, time_reference := now } := rfl
        _ = { s with paused := false, time_reference := now } :=
            tick_at_reference { s with paused := false, time_reference := now } h
    · rw [if_neg hp]
      have hpt : (tick now s).paused = s.paused := rfl
      rw [if_neg (by rw [hpt]; exact hp)]
      have hb := tick_bounds s now h
      calc tick now (tick now s)
          = tick (tick now s).time_reference (tick now s) := rfl
        _ = tick now s := tick_at_reference _ hb.1
  · unfold stopOp
    simp
  · unfold stopOp
    simp only
    norm_num

/-- C7 witness: idempotence instantiated on a fresh 90s timer. -/
theorem c7_pause_resume_stop_idempotent_witness :
    pauseOp (pauseOp (Timer.init 90)) = pauseOp (Timer.init 90) ∧
    resumeOp 5 (resumeOp 5 (Timer.init 90)) = resumeOp 5 (Timer.init 90) := by
  have h := c7_pause_resume_stop_idempotent (Timer.init 90) 5
  exact ⟨h.1, h.2.1 (by norm_num [Timer.init])⟩

/-- C8: every countdown tick subtracts exactly
`min(time_left, max(0, now - time_reference))`, a quantity between `0`
and the current `time_left`; hence over any sequence of ticks with no
adjust command, `time_left` is non-increasing and never negative. -/
theorem c8_monotone_nonnegative (s : Timer) (now : ℚ) (ts : List ℚ)
    (h : 0 ≤ s.time_left) :
    s.time_left - (tick now s).time_left
        = min s.time_left (max 0 (now - s.time_reference)) ∧
    0 ≤ (tick now s).time_left ∧ (tick now s).time_left ≤ s.time_left ∧
    0 ≤ (ticks ts s).time_left ∧ (ticks ts s).time_left ≤ s.time_left := by
  have hb := tick_bounds s now h
  have hs := ticks_bounds ts s h
  refine ⟨?_, hb.1, hb.2, hs.1, hs.2⟩
  unfold tick
  simp only
  ring

/-- C8 witness: a 90s timer ticked at clock readings 60 then 75 is at
15s: non-increasing and non-negative throughout. -/
theorem c8_monotone_nonnegative_witness :
    0 ≤ (ticks [60, 75] (Timer.init 90)).time_left ∧
    (ticks [60, 75] (Timer.init 90)).time_left ≤ (Timer.init 90).time_left := by
  have h := c8_monotone_nonnegative (Timer.init 90) 60 [60, 75]
    (by norm_num [Timer.init])
  exact ⟨h.2.2.2.1, h.2.2.2.2⟩

/-- C9: the countdown wait is 30s from the fine-grained cutoff
`DISPLAY_SECONDS + 30 = 330` up, `1.01s` (near one second) between 2s
and the cutoff, and exactly the remaining time under 2s. -/
theorem c9_wait_cadence (t : ℚ) :
    DISPLAY_SECONDS + 30 = 330 ∧
    (330 ≤ t → waitInterval t = 30) ∧
    (2 ≤ t → t < 330 → waitInterval t = 101/100) ∧
    (t < 2 → waitInterval t = t) := by
  have hc : DISPLAY_SECONDS + 30 = 330 := by norm_num [DISPLAY_SECONDS]
  refine ⟨hc, ?_, ?_, ?_⟩
  · intro h
    unfold waitInterval
    rw [if_neg (by linarith), hc, if_neg (by linarith)]
  · intro h2 h330
    unfold waitInterval
    rw [if_neg (by linarith), hc, if_pos h330]
  · intro h
    unfold waitInterval
    rw [if_pos h]

/-- C9 witness: the three cadence regimes at 500s, 100s and 1.5s. -/
theorem c9_wait_cadence_witness :
    waitInterval 500 = 30 ∧ waitInterval 100 = 101/100 ∧
    waitInterval (3/2) = 3/2 := by
  refine ⟨(c9_wait_cadence 500).2.1 (by norm_num),
          (c9_wait_cadence 100).2.2.1 (by norm_num) (by norm_num),
          (c9_wait_cadence (3/2)).2.2.2 (by norm_num)⟩

/-- C6: both start handlers reject exactly the zero (hence non-positive)
durations before any timer state is built, and accept every strictly
positive achievable duration.  Durations are `hours * 3600 +
minutes * 60`, so bot.py's `initial_time < 60` guard also triggers
exactly on zero; an accepted timer_bot timer starts with the full
duration as `time_left`. -/
theorem c6_zero_duration_rejected (h m : ℕ) :
    ((startTB h m).isNone ↔ h * 3600 + m * 60 = 0) ∧
    ((BotPy.startB h m).isNone ↔ h * 3600 + m * 60 = 0) ∧
    (∀ t, startTB h m = some t →
      t.time_left = ((h * 3600 + m * 60 : ℕ) : ℚ) ∧ 0 < h * 3600 + m * 60) := by
  refine ⟨?_, ?_, ?_⟩
  · unfold startTB
    by_cases hz : h * 3600 + m * 60 = 0 <;> simp [hz]
  · unfold BotPy.startB
    by_cases hz : h * 3600 + m * 60 < 60 <;> simp [hz] <;> omega
  · intro t ht
    unfold startTB at ht
    by_cases hz : h * 3600 + m * 60 = 0
    · simp [hz] at ht
    · simp [hz] at ht
      subst ht
      exact ⟨rfl, by omega⟩

/-- C6 witness: zero hours and minutes are rejected by both handlers;
one minute is accepted with 60s left. -/
theorem c6_zero_duration_rejected_witness :
    (startTB 0 0).isNone ∧ (BotPy.startB 0 0).isNone ∧
    ∀ t, startTB 0 1 = some t → t.time_left = ((60 : ℕ) : ℚ) := by
  refine ⟨(c6_zero_duration_rejected 0 0).1.mpr (by norm_num),
          (c6_zero_duration_rejected 0 0).2.1.mpr (by norm_num),
          fun t ht => ((c6_zero_duration_rejected 0 1).2.2 t ht).1⟩

/-- C4 counterexample: in timer_bot's `sub` path there is no
`InsufficientTime` guard at all: on a fresh 120s timer, subtracting
3 minutes (180s, exceeding `time_left` minus any margin) is applied,
changing the state to `time_left = -60` instead of being rejected with
the state unchanged. -/
theorem c4_sub_not_rejected_counterexample :
    (cmdSub 3 (Timer.init 120)).time_left = -60 ∧
    (cmdSub 3 (Timer.init 120)).time_left ≠ (Timer.init 120).time_left := by
  constructor
  · simp [cmdSub, Timer.init]
    norm_num
  · simp [cmdSub, Timer.init]

/-- C4 (amended): bot.py's `sub` handler rejects the command, touching
nothing, exactly when the requested amount exceeds `left - REFRESH`,
and otherwise applies the clamped adjustment; timer_bot.py's `sub` path
has no such guard and always subtracts, possibly below zero. -/
theorem c4_insufficient_time_guard (refresh : ℚ) (m : ℕ)
    (e : BotPy.EngineTimer) (s : Timer) :
    (e.left - refresh < (m : ℚ) * 60 →
      BotPy.handleSub refresh m e = Except.error ()) ∧
    ((m : ℚ) * 60 ≤ e.left - refresh →
      BotPy.handleSub refresh m e =
        Except.ok (BotPy.adjust_time (-((m : ℚ) * 60)) e)) ∧
    (cmdSub m s).time_left = s.time_left - 60 * m := by
  refine ⟨?_, ?_, ?_⟩
  · intro h
    unfold BotPy.handleSub
    rw [if_pos h]
  · intro h
    unfold BotPy.handleSub
    rw [if_neg (by linarith)]
  · simp [cmdSub]
    ring

/-- C4 witness (near Scenario D): with a 30s-margin engine holding 30s,
subtracting 1 minute is rejected. -/
theorem c4_insufficient_time_guard_witness :
    BotPy.handleSub 30 1 { left := 30, total := 30, paused := false }
      = Except.error () := by
  refine (c4_insufficient_time_guard 30 1
    { left := 30, total := 30, paused := false } (Timer.init 120)).1 ?_
  norm_num

/-- C5 counterexample: a timer of exactly 3600s gets an hourly threshold
equal to its full duration: `3600 ∈ initThresholds 3600`, although
`3600 < 3600` is false — the hourly thresholds are not filtered to
values strictly below the starting `time_left`. -/
theorem c5_hourly_not_filtered_counterexample :
    3600 ∈ initThresholds 3600 ∧ ¬ (3600 < 3600) := by
  constructor
  · simp [initThresholds, THRESHOLDS]
  · omega

/-- C5 (amended): the threshold list at creation consists of the
canonical set `{0, 60, 300, 900, 1800}` filtered to values strictly
below the initial duration, plus one threshold `3600 k` for every whole
hour `1 ≤ k ≤ d / 3600` — the hourly part is not filtered, so for
whole-hour durations the last hourly threshold equals the duration
itself; a 3700s timer's thresholds do include 3600s. -/
theorem c5_threshold_construction (d x : ℕ) :
    (x ∈ initThresholds d ↔
      (x ∈ THRESHOLDS ∧ x < d) ∨ (∃ k, 1 ≤ k ∧ k ≤ d / 3600 ∧ x = 3600 * k)) ∧
    3600 ∈ initThresholds 3700 := by
  constructor
  · unfold initThresholds
    simp only [List.mem_append, List.mem_filter, List.mem_map, List.mem_range,
      decide_eq_true_eq]
    constructor
    · rintro (⟨hmem, hlt⟩ | ⟨j, hj, hx⟩)
      · exact Or.inl ⟨hmem, hlt⟩
      · exact Or.inr ⟨j + 1, by omega, by omega, by omega⟩
    · rintro (⟨hmem, hlt⟩ | ⟨k, hk1, hk2, hx⟩)
      · exact Or.inl ⟨hmem, hlt⟩
      · exact Or.inr ⟨k - 1, by omega, by omega⟩
  · simp [initThresholds, THRESHOLDS]

section ThresholdLoop

/-- Method `_next_threshold` only ever returns values strictly under its
argument. -/
theorem nextThreshold_lt (u w : ℕ) (h : BotPy.nextThreshold u = some w) :
    w < u := by
  unfold BotPy.nextThreshold at h
  by_cases h36 : 3600 < u
  · rw [if_pos h36] at h
    have hw : (u - 1) / 3600 * 3600 = w := by injection h
    have hle : (u - 1) / 3600 * 3600 ≤ u - 1 := Nat.div_mul_le_self _ _
    omega
  · rw [if_neg h36] at h
    obtain ⟨hne, hw⟩ := List.mem_getLast?_eq_getLast (Option.mem_def.mpr h)
    have hmem : w ∈ BotPy.THRESHOLDS.filter (fun t => decide (t < u)) :=
      hw ▸ List.getLast_mem hne
    have hp := List.of_mem_filter hmem
    simpa using hp

/-- Running `advanceAux` with no threshold is inert, for any fuel. -/
theorem advanceAux_none (fuel : ℕ) (tl : ℚ) :
    BotPy.advanceAux fuel none tl = (none, none) := by
  cases fuel <;> rfl

/-- If the loop fired nothing, the stored threshold is unchanged. -/
theorem advanceAux_snd_none : ∀ (fuel : ℕ) (cur : Option ℕ) (tl : ℚ),
    (BotPy.advanceAux fuel cur tl).2 = none →
    (BotPy.advanceAux fuel cur tl).1 = cur := by
  intro fuel
  induction fuel with
  | zero =>
      intro cur tl h
      cases cur <;> rfl
  | succ fuel ih =>
      intro cur tl h
      cases cur with
      | none => rfl
      | some u =>
          by_cases hc : u ≠ 0 ∧ tl ≤ (u : ℚ)
          · exfalso
            simp [BotPy.advanceAux, hc] at h
          · simp [BotPy.advanceAux, hc]

/-- If the loop fired the notification `v`, then `v` was crossed
(`tl ≤ v`), the stored threshold afterwards is strictly below `v`, and
`v` is at most the threshold the loop started from. -/
theorem advanceAux_fired : ∀ (fuel : ℕ) (cur : Option ℕ) (tl : ℚ) (v : ℕ),
    (BotPy.advanceAux fuel cur tl).2 = some v →
    tl ≤ (v : ℚ) ∧
    (∀ w, (BotPy.advanceAux fuel cur tl).1 = some w → w < v) ∧
    (∃ u, cur = some u ∧ v ≤ u) := by
  intro fuel
  induction fuel with
  | zero =>
      intro cur tl v h
      cases cur <;> simp [BotPy.advanceAux, advanceAux_none] at h
  | succ fuel ih =>
      intro cur tl v h
      cases cur with
      | none => simp [advanceAux_none] at h
      | some u =>
          by_cases hc : u ≠ 0 ∧ tl ≤ (u : ℚ)
          · have hred : BotPy.advanceAux (fuel + 1) (some u) tl =
                ((BotPy.advanceAux fuel (BotPy.nextThreshold u) tl).1,
                 some ((BotPy.advanceAux fuel (BotPy.nextThreshold u) tl).2.getD u)) := by
              simp [BotPy.advanceAux, hc]
            rw [hred] at h ⊢
            have hv : (BotPy.advanceAux fuel (BotPy.nextThreshold u) tl).2.getD u = v := by
              simpa using h
            cases hr : (BotPy.advanceAux fuel (BotPy.nextThreshold u) tl).2 with
            | some v0 =>
                have hvv : v0 = v := by rw [hr] at hv; simpa using hv
                subst hvv
                obtain ⟨h1, h2, u0, hnu, hvu⟩ := ih (BotPy.nextThreshold u) tl v0 hr
                refine ⟨h1, fun w hw => h2 w hw, u, rfl, ?_⟩
                have := nextThreshold_lt u u0 hnu
                omega
            | none =>
                have hvu : u = v := by rw [hr] at hv; simpa using hv
                subst hvu
                refine ⟨hc.2, fun w hw => ?_, u, rfl, le_refl u⟩
                have hfix := advanceAux_snd_none fuel (BotPy.nextThreshold u) tl hr
                rw [hfix] at hw
                exact nextThreshold_lt u w hw
          · simp [BotPy.advanceAux, hc] at h

/-- The fuel in `advanceAux` is irrelevant once it exceeds the stored
threshold: the while loop of `TimerManager.__call__` terminates. -/
theorem advanceAux_fuel : ∀ (f1 f2 : ℕ) (cur : Option ℕ) (tl : ℚ),
    (∀ u, cur = some u → u < f1) → (∀ u, cur = some u → u < f2) →
    BotPy.advanceAux f1 cur tl = BotPy.advanceAux f2 cur tl := by
  intro f1
  induction f1 with
  | zero =>
      intro f2 cur tl hb1 hb2
      cases cur with
      | none => rw [advanceAux_none, advanceAux_none]
      | some u => exact absurd (hb1 u rfl) (by omega)
  | succ f1 ih =>
      intro f2 cur tl hb1 hb2
      cases cur with
      | none => rw [advanceAux_none, advanceAux_none]
      | some u =>
          obtain ⟨f2p, rfl⟩ : ∃ k, f2 = k + 1 := ⟨f2 - 1, by have := hb2 u rfl; omega⟩
          by_cases hc : u ≠ 0 ∧ tl ≤ (u : ℚ)
          · have hnext1 : ∀ w, BotPy.nextThreshold u = some w → w < f1 := by
              intro w hw
              have h1 := nextThreshold_lt u w hw
              have h2 := hb1 u rfl
              omega
            have hnext2 : ∀ w, BotPy.nextThreshold u = some w → w < f2p := by
              intro w hw
              have h1 := nextThreshold_lt u w hw
              have h2 := hb2 u rfl
              omega
            simp only [BotPy.advanceAux, hc, and_self, if_true, ne_eq,
              not_false_iff]
            rw [ih f2p (BotPy.nextThreshold u) tl hnext1 hnext2]
          · simp [BotPy.advanceAux, hc]

end ThresholdLoop

section ThresholdFacts

/-- In a duplicate-free list, popping the last element removes it. -/
theorem getLast?_not_mem_dropLast (l : List ℕ) (hn : l.Nodup) (a : ℕ)
    (h : l.getLast? = some a) : a ∉ l.dropLast := by
  obtain ⟨hne, ha⟩ := List.mem_getLast?_eq_getLast (Option.mem_def.mpr h)
  have hsplit := List.dropLast_append_getLast hne
  rw [← hsplit] at hn
  have hd := List.disjoint_of_nodup_append hn
  intro hmem
  exact hd hmem (by simp [← ha])

/-- Below one hour, `_next_threshold` returns the largest canonical
threshold strictly under its argument. -/
theorem nextThreshold_canonical_max (t : ℕ) (ht : t ≤ 3600) (x : ℕ)
    (hx : x ∈ BotPy.THRESHOLDS) (hxt : x < t) :
    ∃ v, BotPy.nextThreshold t = some v ∧ x ≤ v := by
  have hx4 : x = 60 ∨ x = 300 ∨ x = 900 ∨ x = 1800 := by
    simpa [BotPy.THRESHOLDS] using hx
  have hnot : ¬ 3600 < t := by omega
  unfold BotPy.nextThreshold
  rw [if_neg hnot]
  by_cases h18 : 1800 < t
  · have hfil : BotPy.THRESHOLDS.filter (fun a => decide (a < t))
        = [60, 300, 900, 1800] := by
      have c1 : (60:ℕ) < t := by omega
      have c2 : (300:ℕ) < t := by omega
      have c3 : (900:ℕ) < t := by omega
      simp [BotPy.THRESHOLDS, c1, c2, c3, h18]
    rw [hfil]
    exact ⟨1800, rfl, by omega⟩
  · by_cases h9 : 900 < t
    · have hfil : BotPy.THRESHOLDS.filter (fun a => decide (a < t))
          = [60, 300, 900] := by
        have c1 : (60:ℕ) < t := by omega
        have c2 : (300:ℕ) < t := by omega
        simp [BotPy.THRESHOLDS, c1, c2, h9, h18]
      rw [hfil]
      exact ⟨900, rfl, by omega⟩
    · by_cases h3 : 300 < t
      · have hfil : BotPy.THRESHOLDS.filter (fun a => decide (a < t))
            = [60, 300] := by
          have c1 : (60:ℕ) < t := by omega
          simp [BotPy.THRESHOLDS, c1, h3, h9, h18]
        rw [hfil]
        exact ⟨300, rfl, by omega⟩
      · by_cases h6 : 60 < t
        · have hfil : BotPy.THRESHOLDS.filter (fun a => decide (a < t))
              = [60] := by
            simp [BotPy.THRESHOLDS, h6, h3, h9, h18]
          rw [hfil]
          exact ⟨60, rfl, by omega⟩
        · exact absurd hxt (by omega)

end ThresholdFacts

/-- C2 counterexample: with the pending threshold at 1800s and a tick
observing `time_left = 100`, the thresholds 1800, 900 and 300 are all
crossed at once, yet the bot.py display callback advances the stored
threshold down to 60 and posts a single notification, for 300 only:
the crossed thresholds 1800 and 900 are consumed without ever firing
their own notification, instead of every crossed threshold being
emitted as its own notification in descending order. -/
theorem c2_skipped_thresholds_counterexample :
    BotPy.advance (some 1800) (100 : ℚ) = (some 60, some 300) ∧
    (BotPy.advance (some 1800) (100 : ℚ)).2 ≠ some 1800 := by
  constructor
  · decide
  · decide

/-- C2 (amended): in both variants each threshold fires at most once and
never while `time_left` is strictly above it, but a single display
update emits at most one threshold notification.  In timer_bot.py a
fired threshold (the highest pending one) is popped and never refires;
in bot.py a fired threshold is the lowest crossed one, and the stored
threshold moves strictly below it, so it can never fire again —
crossed thresholds above it are skipped without notification. -/
theorem c2_threshold_fire_policy (s : Timer) (cur : Option ℕ) (tl : ℚ) :
    ((fireStep s).2.length ≤ 1 ∧
      ∀ v ∈ (fireStep s).2,
        s.time_left ≤ (v : ℚ) ∧ s.thresholds.getLast? = some v ∧
        (s.thresholds.Nodup → v ∉ (fireStep s).1.thresholds)) ∧
    (∀ v, (BotPy.advance cur tl).2 = some v →
      tl ≤ (v : ℚ) ∧ ∀ w, (BotPy.advance cur tl).1 = some w → w < v) := by
  constructor
  · cases hl : s.thresholds.getLast? with
    | none => simp [fireStep, hl]
    | some last =>
        by_cases hc : s.time_left ≤ (last : ℚ) ∧ 0 ≤ s.time_left
        · have hred : fireStep s =
              ({ s with thresholds := s.thresholds.dropLast }, [last]) := by
            simp [fireStep, hl, hc]
          rw [hred]
          refine ⟨by simp, ?_⟩
          intro v hv
          simp only [List.mem_singleton] at hv
          subst hv
          refine ⟨hc.1, rfl, fun hn => ?_⟩
          exact getLast?_not_mem_dropLast s.thresholds hn v hl
        · simp [fireStep, hl, hc]
  · intro v hv
    obtain ⟨h1, h2, _⟩ := advanceAux_fired (cur.elim 0 (· + 1)) cur tl v hv
    exact ⟨h1, h2⟩

/-- C2 witness: on a fresh 3700s timer whose display observes
`time_left = 1700`, timer_bot pops and notifies the single crossed
threshold 3600, removing it from the pending list. -/
theorem c2_threshold_fire_policy_witness :
    ((fireStep { Timer.init 3700 with time_left := 1700 }).2.length ≤ 1) ∧
    ∀ v ∈ (fireStep { Timer.init 3700 with time_left := 1700 }).2,
      (1700 : ℚ) ≤ (v : ℚ) := by
  have h := c2_threshold_fire_policy
    { Timer.init 3700 with time_left := 1700 } (some 3600) 1700
  exact ⟨h.1.1, fun v hv => (h.1.2 v hv).1⟩

/-- C10: for every positive `t`, `_next_threshold(t)` is `None` or a
value strictly below `t` — the largest whole-hour boundary under `t`
when `t > 3600`, otherwise the largest canonical threshold under `t` —
so the threshold-advancing while loop of the display callback
terminates (its result is independent of any fuel beyond `t + 1`) and
the stored threshold strictly decreases whenever a notification fires,
making each threshold value usable for a notification at most once. -/
theorem c10_next_threshold_descends (t : ℕ) (ht : 0 < t) :
    (∀ v, BotPy.nextThreshold t = some v → v < t) ∧
    (3600 < t → ∃ k, BotPy.nextThreshold t = some (3600 * k) ∧
      3600 * k < t ∧ t ≤ 3600 * (k + 1)) ∧
    (t ≤ 3600 → ∀ x ∈ BotPy.THRESHOLDS, x < t →
      ∃ v, BotPy.nextThreshold t = some v ∧ x ≤ v) ∧
    (∀ (tl : ℚ) (extra : ℕ),
      BotPy.advanceAux (t + 1 + extra) (some t) tl = BotPy.advance (some t) tl) ∧
    (∀ (tl : ℚ) (w : ℕ), (BotPy.advance (some t) tl).1 = some w →
      w ≤ t ∧ ((BotPy.advance (some t) tl).2 ≠ none → w < t)) := by
  refine ⟨fun v hv => nextThreshold_lt t v hv, ?_, ?_, ?_, ?_⟩
  · intro h36
    refine ⟨(t - 1) / 3600, ?_, ?_, ?_⟩
    · unfold BotPy.nextThreshold
      rw [if_pos h36, Nat.mul_comm]
    · have := Nat.div_mul_le_self (t - 1) 3600
      omega
    · omega
  · intro hle x hx hxt
    exact nextThreshold_canonical_max t hle x hx hxt
  · intro tl extra
    unfold BotPy.advance
    refine advanceAux_fuel (t + 1 + extra) ((some t).elim 0 (· + 1)) (some t) tl
      ?_ ?_
    · intro u hu
      injection hu with hu
      omega
    · intro u hu
      injection hu with hu
      simp [← hu]
  · intro tl w hw
    cases hf : (BotPy.advance (some t) tl).2 with
    | none =>
        have hfix := advanceAux_snd_none ((some t).elim 0 (· + 1)) (some t) tl hf
        have h1 : (BotPy.advance (some t) tl).1 = some t := hfix
        have h2 : some w = some t := hw ▸ h1
        injection h2 with hwt
        exact ⟨le_of_eq hwt, fun hcon => absurd rfl hcon⟩
    | some v =>
        obtain ⟨_, h2, u, hu, hvu⟩ :=
          advanceAux_fired ((some t).elim 0 (· + 1)) (some t) tl v hf
        injection hu with hu
        have hwv := h2 w hw
        constructor
        · omega
        · intro _
          omega

/-- C10 witness: at `t = 7300` the next threshold is the hour boundary
7200, strictly below, and the loop at `time_left = 50` ends with a
stored threshold strictly below 7300. -/
theorem c10_next_threshold_descends_witness :
    (∀ v, BotPy.nextThreshold 7300 = some v → v < 7300) ∧
    (∀ w, (BotPy.advance (some 7300) (50:ℚ)).1 = some w → w ≤ 7300) := by
  have h := c10_next_threshold_descends 7300 (by omega)
  exact ⟨h.1, fun w hw => ((h.2.2.2.2 50 w) hw).1⟩
